import Mathlib

/-!
# Verification of the `bottom` IRC client core (`bottom.py`)

Shallow embedding of the connection lifecycle, handler registry, dispatcher
and command normalizer of `bottom.py`, together with proofs of the spec's
claims about them.

Modelling conventions:
* Python strings are Lean `String`s; the transport is a scripted list of
  already-decoded, stripped lines (as produced by `Connection.read`).
* A Python exception escaping a function is modelled by `Option`/`Except`
  returning `none`/`.error`.
* Handler callables are identified by a `Nat` id; their declared parameter
  names and runtime behaviour are supplied by an `Env` (standing for the
  reflection data that the `route` module reads off the Python function
  object).
* `route.py` and `rfc.py` are modules of this repository that are not under
  `src/`; the definitions standing for them are modelled from the spec and
  carry a doc comment saying so.
-/

set_option autoImplicit false

namespace Bottom

/-- Python's `str.upper()`, mapped over the string's characters (the command
tokens involved are ASCII, for which this is exact). -/
def strUpper (s : String) : String := ⟨s.data.map Char.toUpper⟩

/-- The fixed local-command set, from `LOCAL_COMMANDS` in `bottom.py`:
`{"CLIENT_CONNECT", "CLIENT_DISCONNECT"}`. -/
def LOCAL_COMMANDS : List String := ["CLIENT_CONNECT", "CLIENT_DISCONNECT"]

/-- Modelled from the spec: the external protocol command table consulted by
`rfc.unique_command` (`rfc.py` is not under `src/`).  The spec leaves the
table's exact contents to the codec; here it is a representative finite set of
canonical uppercase protocol tokens, containing every protocol command the
spec mentions. -/
def RFC_COMMANDS : List String :=
  ["NICK", "USER", "JOIN", "PART", "PRIVMSG", "NOTICE", "PING", "PONG", "QUIT"]

/-- Modelled from the spec: `rfc.unique_command`
(`normalizeProtocolCommand(token) -> canonical-token-or-error`): a token in
the protocol command table maps to its canonical form, any other token is an
error (`none`). -/
def rfc_unique_command (command : String) : Option String :=
  if command ∈ RFC_COMMANDS then some command else none

/-- From `get_command` in `bottom.py`: upper-case the token, return it if it
is one of the two local commands, otherwise delegate to
`rfc.unique_command`.  `none` models the exception raised on an unrecognized
token. -/
def get_command (command : String) : Option String :=
  if strUpper command ∈ LOCAL_COMMANDS then some (strUpper command)
  else rfc_unique_command (strUpper command)

/-- Every entry of the protocol command table is uppercase-canonical. -/
theorem rfc_commands_upper : ∀ c ∈ RFC_COMMANDS, strUpper c = c := by decide

/-- The protocol command table and the local-command set are disjoint. -/
theorem rfc_commands_not_local : ∀ c ∈ RFC_COMMANDS, c ∉ LOCAL_COMMANDS := by
  decide

theorem local_commands_upper : ∀ c ∈ LOCAL_COMMANDS, strUpper c = c := by
  decide

/-- Characterisation of successful normalization: the result is the
upper-cased input, and it lies in the local set or in the protocol table. -/
theorem get_command_eq_some {t c : String} (h : get_command t = some c) :
    c = strUpper t ∧ (c ∈ LOCAL_COMMANDS ∨ c ∈ RFC_COMMANDS) := by
  unfold get_command at h
  by_cases hl : strUpper t ∈ LOCAL_COMMANDS
  · rw [if_pos hl] at h
    injection h with h
    subst h
    exact ⟨rfl, Or.inl hl⟩
  · rw [if_neg hl] at h
    unfold rfc_unique_command at h
    by_cases hr : strUpper t ∈ RFC_COMMANDS
    · rw [if_pos hr] at h
      injection h with h
      subst h
      exact ⟨rfl, Or.inr hr⟩
    · rw [if_neg hr] at h
      exact absurd h (by simp)

/-- A canonical command (member of either table) normalizes to itself. -/
theorem get_command_canonical {c : String}
    (h : c ∈ LOCAL_COMMANDS ∨ c ∈ RFC_COMMANDS) : get_command c = some c := by
  unfold get_command
  rcases h with h | h
  · rw [local_commands_upper c h]
    simp [h]
  · rw [rfc_commands_upper c h]
    have hnl := rfc_commands_not_local c h
    simp [hnl, rfc_unique_command, h]

/-! ## Handler registry and dispatcher (`Handler` in `bottom.py`) -/

/-- A field value in a field mapping (Python dict values: strings or ints). -/
inductive Val where
  | s (v : String)
  | n (v : Nat)
deriving DecidableEq

/-- A field mapping (`kwargs`): named values extracted from a line or built
for a local lifecycle event. -/
abbrev Fields := List (String × Val)

/-- Result of running one handler callable: normal return or a raised
exception (identified by a `Nat` code). -/
inductive HResult where
  | ok
  | err (code : Nat)
deriving DecidableEq

/-- One element of a `Handler.coros` set.  In `Handler.add`, `bottom.py`
wraps the registered callable as `asyncio.coroutine(route.partial_bind(command,
func))` before inserting it; both layers build a new Python object on every
call (the code's own comment says the partial needs wrapping, i.e. it is not
already a coroutine function, so `asyncio.coroutine` builds a fresh wrapper).
The wrapper's identity — what `set` membership compares — is modelled by a
per-registration serial number `id`; `func` identifies the underlying
callable. -/
structure Binding where
  id : Nat
  func : Nat
deriving DecidableEq

/-- Reflection/route data for callables and commands: each callable id has
declared parameter names and a runtime behaviour; each command has a legal
field set (the `route` module's table; modelled from the spec). -/
structure Env where
  funcParams : Nat → List String
  legalFields : String → List String
  behavior : Nat → Fields → HResult

/-- The registry: `self.coros`, a `defaultdict(set)` from command to the set
of wrapped callables.  Modelled as the association list of the keys that are
explicitly present in the dict (a `defaultdict` distinguishes an absent key
from a key mapped to an empty set), plus the serial counter for wrapper
identities.  Sets are lists without duplicates, kept in insertion order. -/
structure Handler where
  coros : List (String × List Binding)
  nextId : Nat
deriving DecidableEq

def Handler.empty : Handler := ⟨[], 0⟩

/-- Dict lookup without insertion: the value at key `k`, if present. -/
def dictFind (d : List (String × List Binding)) (k : String) :
    Option (List Binding) :=
  (d.find? (fun e => e.1 == k)).map (fun e => e.2)

/-- Python `set.add`: insert unless an equal element is present. -/
def setAdd (s : List Binding) (b : Binding) : List Binding :=
  if b ∈ s then s else s ++ [b]

/-- `self.coros[k].add b` on the `defaultdict(set)`: create the entry if the
key is absent, then `set.add`. -/
def dictAddTo (d : List (String × List Binding)) (k : String) (b : Binding) :
    List (String × List Binding) :=
  match d with
  | [] => [(k, [b])]
  | (k', s) :: rest =>
    if k' = k then (k', setAdd s b) :: rest else (k', s) :: dictAddTo rest k b

/-- The set of bindings the registry associates to command `c`, reading an
absent key as the empty set (the extensional content of the `defaultdict`). -/
def Handler.bindings (h : Handler) (c : String) : List Binding :=
  (dictFind h.coros c).getD []

inductive AddError where
  | unknownCommand
  | invalidSignature
deriving DecidableEq

/-- Modelled from the spec: `route.validate(command, func)`
(`validateSignature(command, handler) -> ok-or-error`): the callable's
declared parameters must be a subset of the command's legal field set. -/
def route_validate (env : Env) (command : String) (func : Nat) : Bool :=
  (env.funcParams func).all (fun p => (env.legalFields command).contains p)

/-- From `Handler.add` in `bottom.py`: normalize the command (raising on an
unknown token), fail fast if the callable's signature does not match the
command's fields (`route.validate`), wrap the callable
(`asyncio.coroutine(route.partial_bind(...))` — a fresh wrapper object,
modelled by the serial number `h.nextId`), and `set.add` it under the
normalized key. -/
def Handler.add (env : Env) (h : Handler) (command : String) (func : Nat) :
    Except AddError Handler :=
  match get_command command with
  | none => .error .unknownCommand
  | some c =>
    if route_validate env c func then
      .ok ⟨dictAddTo h.coros c ⟨h.nextId, func⟩, h.nextId + 1⟩
    else .error .invalidSignature

/-- From `Client.on` in `bottom.py`: normalize the command eagerly (raising
on an unknown token), then the returned decorator adds the callable through
`Handler.add`. -/
def Client.on (env : Env) (h : Handler) (command : String) (func : Nat) :
    Except AddError Handler :=
  match get_command command with
  | none => .error .unknownCommand
  | some c => Handler.add env h c func

/-- From `Handler.__call__` in `bottom.py`:
```
coros = self.coros[get_command(command)]   -- defaultdict getitem
if not coros: return
tasks = [coro(kwargs) for coro in coros]
yield from asyncio.wait(tasks)
```
`self.coros[...]` on an absent key inserts an empty set (defaultdict);
`asyncio.wait` (default `ALL_COMPLETED`) runs every task to completion,
capturing exceptions in the tasks, and its `(done, pending)` result is
discarded, so the caller receives `None` either way.  The returned list of
`(binding, result)` pairs is the instrumentation of the awaited group — one
completion per task the dispatcher waited on; it is not visible to the
caller in the Python code.  `none` models the exception `get_command` raises
on an unrecognized token. -/
def Handler.call (env : Env) (h : Handler) (command : String)
    (kwargs : Fields) : Option (Handler × List (Binding × HResult)) :=
  match get_command command with
  | none => none
  | some c =>
    match dictFind h.coros c with
    | none => some (⟨h.coros ++ [(c, [])], h.nextId⟩, [])
    | some coros =>
      if coros.isEmpty then some (h, [])
      else some (h, coros.map (fun b => (b, env.behavior b.func kwargs)))

/-! ### Registry lemmas -/

theorem dictFind_nil (k : String) : dictFind [] k = none := rfl

theorem dictFind_cons_self (k : String) (s : List Binding)
    (rest : List (String × List Binding)) :
    dictFind ((k, s) :: rest) k = some s := by
  unfold dictFind
  rw [List.find?_cons_of_pos _ (by simp)]
  simp

theorem dictFind_cons_ne (k k' : String) (s : List Binding)
    (rest : List (String × List Binding)) (h : k' ≠ k) :
    dictFind ((k', s) :: rest) k = dictFind rest k := by
  unfold dictFind
  rw [List.find?_cons_of_neg]
  simp [h]

/-- Looking up in the dict after inserting an explicit empty entry for an
absent key: every key reads the same set as before (extensionally). -/
theorem dictFind_append_empty_getD (d : List (String × List Binding))
    (c k : String) :
    ((dictFind (d ++ [(c, [])]) k).getD []) = (dictFind d k).getD [] := by
  induction d with
  | nil =>
    by_cases h : c = k
    · subst h
      rw [List.nil_append, dictFind_cons_self]
      rfl
    · rw [List.nil_append, dictFind_cons_ne _ _ _ _ h]
  | cons e rest ih =>
    rcases e with ⟨k', s⟩
    by_cases h : k' = k
    · subst h
      rw [List.cons_append, dictFind_cons_self, dictFind_cons_self]
    · rw [List.cons_append, dictFind_cons_ne _ _ _ _ h,
        dictFind_cons_ne _ _ _ _ h]
      exact ih

/-- `dictAddTo` at the inserted key. -/
theorem dictFind_dictAddTo_self (d : List (String × List Binding))
    (k : String) (b : Binding) :
    dictFind (dictAddTo d k b) k = some (setAdd ((dictFind d k).getD []) b) := by
  induction d with
  | nil =>
    simp [dictAddTo, dictFind_nil, dictFind_cons_self, setAdd]
  | cons e rest ih =>
    rcases e with ⟨k', s⟩
    by_cases h : k' = k
    · subst h
      rw [dictAddTo, if_pos rfl, dictFind_cons_self, dictFind_cons_self]
      rfl
    · rw [dictAddTo, if_neg h, dictFind_cons_ne _ _ _ _ h,
        dictFind_cons_ne _ _ _ _ h]
      exact ih

/-- `dictAddTo` at any other key. -/
theorem dictFind_dictAddTo_other (d : List (String × List Binding))
    (k k' : String) (b : Binding) (hne : k' ≠ k) :
    dictFind (dictAddTo d k b) k' = dictFind d k' := by
  induction d with
  | nil =>
    rw [dictAddTo, dictFind_cons_ne _ _ _ _ (Ne.symm hne)]
  | cons e rest ih =>
    rcases e with ⟨k0, s⟩
    by_cases h : k0 = k
    · subst h
      rw [dictAddTo, if_pos rfl, dictFind_cons_ne _ _ _ _ (Ne.symm hne),
        dictFind_cons_ne _ _ _ _ (Ne.symm hne)]
    · rw [dictAddTo, if_neg h]
      by_cases h2 : k0 = k'
      · subst h2
        rw [dictFind_cons_self, dictFind_cons_self]
      · rw [dictFind_cons_ne _ _ _ _ h2, dictFind_cons_ne _ _ _ _ h2]
        exact ih

theorem setAdd_mem {s : List Binding} {b x : Binding} (h : x ∈ setAdd s b) :
    x ∈ s ∨ x = b := by
  unfold setAdd at h
  by_cases hb : b ∈ s
  · rw [if_pos hb] at h
    exact Or.inl h
  · rw [if_neg hb] at h
    rcases List.mem_append.mp h with h | h
    · exact Or.inl h
    · exact Or.inr (List.mem_singleton.mp h)

theorem setAdd_of_not_mem {s : List Binding} {b : Binding} (h : b ∉ s) :
    setAdd s b = s ++ [b] := by
  unfold setAdd
  rw [if_neg h]

/-- Any binding stored after `dictAddTo` is the inserted one or was already
stored. -/
theorem dictAddTo_mem {d : List (String × List Binding)} {k : String}
    {b : Binding} {e : String × List Binding} (he : e ∈ dictAddTo d k b)
    {x : Binding} (hx : x ∈ e.2) : x = b ∨ ∃ e' ∈ d, x ∈ e'.2 := by
  induction d with
  | nil =>
    simp only [dictAddTo, List.mem_singleton] at he
    subst he
    simp only [List.mem_singleton] at hx
    exact Or.inl hx
  | cons e0 rest ih =>
    rcases e0 with ⟨k0, s⟩
    by_cases h : k0 = k
    · rw [dictAddTo, if_pos h] at he
      rcases List.mem_cons.mp he with he | he
      · subst he
        rcases setAdd_mem hx with hx | hx
        · exact Or.inr ⟨(k0, s), List.mem_cons_self _ _, hx⟩
        · exact Or.inl hx
      · exact Or.inr ⟨e, List.mem_cons_of_mem _ he, hx⟩
    · rw [dictAddTo, if_neg h] at he
      rcases List.mem_cons.mp he with he | he
      · subst he
        exact Or.inr ⟨(k0, s), List.mem_cons_self _ _, hx⟩
      · rcases ih he with hx' | ⟨e', he', hx'⟩
        · exact Or.inl hx'
        · exact Or.inr ⟨e', List.mem_cons_of_mem _ he', hx'⟩

/-- Registry well-formedness: every stored wrapper's serial number predates
the counter.  Holds for every registry built by `Handler.add` from
`Handler.empty`. -/
def Handler.wf (h : Handler) : Prop :=
  ∀ e ∈ h.coros, ∀ b ∈ e.2, b.id < h.nextId

instance (h : Handler) : Decidable h.wf := by
  unfold Handler.wf
  infer_instance

theorem Handler.empty_wf : Handler.empty.wf := by
  intro e he
  simp [Handler.empty] at he

theorem bindings_mem {h : Handler} {c : String} {b : Binding}
    (hb : b ∈ h.bindings c) : ∃ e ∈ h.coros, b ∈ e.2 := by
  unfold Handler.bindings at hb
  cases hdf : dictFind h.coros c with
  | none => rw [hdf] at hb; simp at hb
  | some s =>
    rw [hdf] at hb
    simp only [Option.getD_some] at hb
    unfold dictFind at hdf
    cases hf : h.coros.find? (fun e => e.1 == c) with
    | none => rw [hf] at hdf; simp at hdf
    | some e =>
      rw [hf] at hdf
      simp only [Option.map_some', Option.some.injEq] at hdf
      exact ⟨e, List.mem_of_find?_eq_some hf, hdf ▸ hb⟩

theorem wf_bindings_id_lt {h : Handler} (hwf : h.wf) {c : String}
    {b : Binding} (hb : b ∈ h.bindings c) : b.id < h.nextId := by
  rcases bindings_mem hb with ⟨e, he, hbe⟩
  exact hwf e he b hbe

/-! ### `Handler.add` lemmas -/

/-- Successful registration: the normalized key gains exactly the fresh
binding `⟨h.nextId, f⟩`, appended after the existing ones (it is never a
duplicate of a stored binding, whose serial numbers are smaller); every
other key is untouched; the serial counter advances. -/
theorem Handler.add_ok {env : Env} {h : Handler} {command : String} {f : Nat}
    {c : String} (hwf : h.wf) (hc : get_command command = some c)
    (hv : route_validate env c f = true) :
    ∃ h', Handler.add env h command f = .ok h' ∧
      h'.bindings c = h.bindings c ++ [⟨h.nextId, f⟩] ∧
      (∀ k, k ≠ c → h'.bindings k = h.bindings k) ∧
      h'.nextId = h.nextId + 1 ∧ h'.wf := by
  refine ⟨⟨dictAddTo h.coros c ⟨h.nextId, f⟩, h.nextId + 1⟩, ?_, ?_, ?_, rfl, ?_⟩
  · simp [Handler.add, hc, hv]
  · show (dictFind (dictAddTo h.coros c ⟨h.nextId, f⟩) c).getD [] = _
    rw [dictFind_dictAddTo_self]
    have hnm : (⟨h.nextId, f⟩ : Binding) ∉ h.bindings c := by
      intro hmem
      exact absurd (wf_bindings_id_lt hwf hmem) (by simp)
    rw [Option.getD_some]
    exact setAdd_of_not_mem hnm
  · intro k hk
    show (dictFind (dictAddTo h.coros c ⟨h.nextId, f⟩) k).getD [] = _
    rw [dictFind_dictAddTo_other _ _ _ _ hk]
    rfl
  · intro e he b hb
    rcases dictAddTo_mem he hb with hb' | ⟨e', he', hb'⟩
    · subst hb'
      simp
    · exact Nat.lt_succ_of_lt (hwf e' he' b hb')

/-- Bridging `route.validate`'s boolean to the subset statement. -/
theorem route_validate_iff (env : Env) (c : String) (f : Nat) :
    route_validate env c f = true ↔
      ∀ p ∈ env.funcParams f, p ∈ env.legalFields c := by
  constructor
  · intro hall p hp
    exact List.elem_iff.mp (List.all_eq_true.mp hall p hp)
  · intro hall
    exact List.all_eq_true.mpr (fun p hp => List.elem_iff.mpr (hall p hp))

/-! ### `Handler.call` lemmas -/

/-- Characterisation of dispatch for a command that normalizes: it returns
normally (the exception branch is only for unrecognized tokens), the awaited
group holds exactly one completion per registered binding, and the registry
is extensionally unchanged. -/
theorem Handler.call_characterization (env : Env) (h : Handler)
    (command : String) (kwargs : Fields) {c : String}
    (hc : get_command command = some c) :
    ∃ h', Handler.call env h command kwargs =
        some (h', (h.bindings c).map (fun b => (b, env.behavior b.func kwargs))) ∧
      (∀ k, h'.bindings k = h.bindings k) ∧ h'.nextId = h.nextId := by
  cases hdf : dictFind h.coros c with
  | none =>
    refine ⟨⟨h.coros ++ [(c, [])], h.nextId⟩, ?_, ?_, rfl⟩
    · have hb : h.bindings c = [] := by
        unfold Handler.bindings
        rw [hdf]
        rfl
      simp [Handler.call, hc, hdf, hb]
    · intro k
      exact dictFind_append_empty_getD h.coros c k
  | some coros =>
    have hb : h.bindings c = coros := by
      unfold Handler.bindings
      rw [hdf]
      rfl
    by_cases he : coros.isEmpty
    · refine ⟨h, ?_, fun _ => rfl, rfl⟩
      simp [Handler.call, hc, hdf, hb, List.isEmpty_iff.mp he]
    · refine ⟨h, ?_, fun _ => rfl, rfl⟩
      have he' : coros ≠ [] := fun hn => he (by simp [hn])
      simp [Handler.call, hc, hdf, hb, he']

/-- Dispatch raises only on an unrecognized command token. -/
theorem Handler.call_none_iff (env : Env) (h : Handler) (command : String)
    (kwargs : Fields) :
    Handler.call env h command kwargs = none ↔ get_command command = none := by
  cases hc : get_command command with
  | none => simp [Handler.call, hc]
  | some c =>
    cases hdf : dictFind h.coros c with
    | none => simp [Handler.call, hc, hdf]
    | some coros =>
      by_cases he : coros = []
      · simp [Handler.call, hc, hdf, he]
      · simp [Handler.call, hc, hdf, he]

/-- What dispatch hands back to its caller is independent of what the
handlers do: the wait results are discarded, so the read loop observes the
same registry state whether handlers succeeded or raised. -/
theorem Handler.call_observable_independent (env1 env2 : Env) (h : Handler)
    (command : String) (kwargs : Fields) :
    (Handler.call env1 h command kwargs).map Prod.fst =
      (Handler.call env2 h command kwargs).map Prod.fst := by
  cases hc : get_command command with
  | none => simp [Handler.call, hc]
  | some c =>
    cases hdf : dictFind h.coros c with
    | none => simp [Handler.call, hc, hdf]
    | some coros =>
      by_cases he : coros = []
      · simp [Handler.call, hc, hdf, he]
      · simp [Handler.call, hc, hdf, he]

/-! ## Wire codec and binding layer (modelled from the spec)

`rfc.parse` and `route.unpack` live in `rfc.py`/`route.py`, repository
modules that are not under `src/`. -/

/-- A parsed wire line: optional prefix, canonical command token, positional
params, optional trailing free-text message (spec glossary, "Wire line"). -/
structure Parsed where
  pfx : Option String
  command : String
  params : List String
  message : Option String
deriving DecidableEq

/-- Does the word open with the `:` sigil? (structural equivalent of
`startsWith ":"`). -/
def startsWithColon (w : String) : Bool := w.data.head? == some ':'

/-- The word with its leading sigil character removed. -/
def dropColon (w : String) : String := ⟨w.data.drop 1⟩

def joinWords : List String → String
  | [] => ""
  | [w] => w
  | w :: rest => w ++ " " ++ joinWords rest

/-- Split a word list into positional params and the trailing message (the
part opened by a word starting with `:`). -/
def splitTrailing : List String → List String × Option String
  | [] => ([], none)
  | w :: rest =>
    if startsWithColon w then
      ([], some (joinWords (dropColon w :: rest)))
    else
      ((w :: (splitTrailing rest).1), (splitTrailing rest).2)

/-- Split a character list at spaces (structural-recursion equivalent of
splitting a line on `" "`). -/
def wordsSplit : List Char → List (List Char)
  | [] => [[]]
  | ch :: rest =>
    match wordsSplit rest with
    | [] => if ch = ' ' then [[], []] else [[ch]]
    | w :: ws => if ch = ' ' then [] :: w :: ws else (ch :: w) :: ws

/-- The non-empty whitespace-separated words of a line. -/
def lineWords (line : String) : List String :=
  ((wordsSplit line.data).map (fun w => (⟨w⟩ : String))).filter
    (fun w => w ≠ "")

def commandTokenWords : List String → Option String
  | [] => none
  | w :: rest => if startsWithColon w then rest.head? else some w

/-- The command token of a wire line: its first whitespace-separated word,
or the second when the line opens with a `:`-prefix. -/
def commandTokenOf (line : String) : Option String :=
  commandTokenWords (lineWords line)

def rfc_parseCmd (pfx : Option String) (cw : String) (args : List String) :
    Option Parsed :=
  match rfc_unique_command (strUpper cw) with
  | none => none
  | some c => some ⟨pfx, c, (splitTrailing args).1, (splitTrailing args).2⟩

def rfc_parseWords : List String → Option Parsed
  | [] => none
  | w :: rest =>
    if startsWithColon w then
      match rest with
      | [] => none
      | cw :: args => rfc_parseCmd (some (dropColon w)) cw args
    else rfc_parseCmd none w rest

/-- Modelled from the spec: `rfc.parse(line) -> parsed-line-or-nothing`,
where nothing signals "unrecognized, discard"; per the spec's error taxonomy
a line whose command token fails protocol-command normalization is
unrecognized exactly like a syntactically unparseable one. -/
def rfc_parse (line : String) : Option Parsed :=
  rfc_parseWords (lineWords line)

/-- Modelled from the spec: `route.unpack(parsed-line) -> (Command,
FieldMapping)`: the canonical command together with the named values of the
parsed line (which positional param gets which name is protocol grammar the
spec leaves to the external layer; the naming here is a fixed deterministic
choice). -/
def route_unpack (p : Parsed) : String × Fields :=
  (p.command,
    (match p.pfx with | some s => [("prefix", Val.s s)] | none => []) ++
      p.params.enum.map (fun e => ("param" ++ toString e.1, Val.s e.2)) ++
      (match p.message with | some m => [("message", Val.s m)] | none => []))

/-- A parsed line's command is canonical: it sits in the protocol table. -/
theorem rfc_parseCmd_command_mem {pfx : Option String} {cw : String}
    {args : List String} {p : Parsed} (hpc : rfc_parseCmd pfx cw args = some p) :
    p.command ∈ RFC_COMMANDS := by
  unfold rfc_parseCmd at hpc
  cases hu : rfc_unique_command (strUpper cw) with
  | none => rw [hu] at hpc; exact absurd hpc (by simp)
  | some c =>
    rw [hu] at hpc
    unfold rfc_unique_command at hu
    by_cases hmem : strUpper cw ∈ RFC_COMMANDS
    · rw [if_pos hmem] at hu
      injection hu with hu
      injection hpc with hpc
      subst hpc
      subst hu
      exact hmem
    · rw [if_neg hmem] at hu
      exact absurd hu (by simp)

theorem rfc_parse_command_mem {line : String} {p : Parsed}
    (h : rfc_parse line = some p) : p.command ∈ RFC_COMMANDS := by
  unfold rfc_parse at h
  cases hl : lineWords line with
  | nil => rw [hl] at h; exact absurd h (by simp [rfc_parseWords])
  | cons w rest =>
    rw [hl] at h
    simp only [rfc_parseWords] at h
    by_cases hw : startsWithColon w
    · rw [if_pos hw] at h
      cases rest with
      | nil => exact absurd h (by simp)
      | cons cw args => exact rfc_parseCmd_command_mem h
    · rw [if_neg hw] at h
      exact rfc_parseCmd_command_mem h

/-- A line whose command token the protocol command table rejects fails to
parse. -/
theorem rfc_parse_none_of_token {line t : String}
    (ht : commandTokenOf line = some t)
    (hu : rfc_unique_command (strUpper t) = none) : rfc_parse line = none := by
  unfold commandTokenOf at ht
  unfold rfc_parse
  cases hl : lineWords line with
  | nil => rw [hl] at ht; exact absurd ht (by simp [commandTokenWords])
  | cons w rest =>
    rw [hl] at ht
    simp only [commandTokenWords] at ht
    simp only [rfc_parseWords]
    by_cases hw : startsWithColon w
    · rw [if_pos hw] at ht
      rw [if_pos hw]
      cases rest with
      | nil => exact absurd ht (by simp)
      | cons cw args =>
        simp only [List.head?] at ht
        injection ht with ht
        subst ht
        simp [rfc_parseCmd, hu]
    · rw [if_neg hw] at ht
      injection ht with ht
      subst ht
      rw [if_neg hw]
      simp [rfc_parseCmd, hu]

/-! ## Connection (`Connection` in `bottom.py`) -/

/-- The `Connection` object: host/port, the stream reader/writer (numbers
standing for the Python stream objects `asyncio.open_connection` returns,
`none` = Python `None`), the composed `Handler`, and a counter to hand out
fresh stream identities.  (`encoding`/`ssl` are constants in the code and
play no role in the claims.) -/
structure Conn where
  host : String
  port : Nat
  reader : Option Nat
  writer : Option Nat
  handle : Handler
  nextStream : Nat
deriving DecidableEq

/-- The field mapping `{'host': self.host, 'port': self.port}` both
lifecycle dispatches build. -/
def lifecycleFields (c : Conn) : Fields :=
  [("host", Val.s c.host), ("port", Val.n c.port)]

/-- Observable steps of a `Connection` run: stream opened, stream released,
one event dispatched (with the completions of its awaited handler group),
or an undecodable line dropped. -/
inductive Action where
  | connected (host : String) (port : Nat)
  | disconnected (host : String) (port : Nat)
  | dispatched (command : String) (kwargs : Fields)
      (completions : List (Binding × HResult))
  | dropped (line : String)
deriving DecidableEq

/-- From `Connection.connect` in `bottom.py`: open a fresh stream pair and
dispatch `CLIENT_CONNECT` with `{host, port}`.  (The model's transport
always accepts the connection; a transport failure would propagate to the
caller and is out of the claims' scope.) -/
def Connection.connect (env : Env) (c : Conn) : Option (Conn × List Action) :=
  match Handler.call env c.handle "CLIENT_CONNECT" (lifecycleFields c) with
  | none => none
  | some (h', comps) =>
    some (⟨c.host, c.port, some c.nextStream, some (c.nextStream + 1), h',
           c.nextStream + 2⟩,
      [.connected c.host c.port,
       .dispatched "CLIENT_CONNECT" (lifecycleFields c) comps])

/-- From `Connection.disconnect` in `bottom.py`: drop the reader, close and
drop the writer (both `if`s collapse to clearing the fields), then dispatch
`CLIENT_DISCONNECT` with `{host, port}` — unconditionally, also when the
connection was already down. -/
def Connection.disconnect (env : Env) (c : Conn) :
    Option (Conn × List Action) :=
  match Handler.call env c.handle "CLIENT_DISCONNECT" (lifecycleFields c) with
  | none => none
  | some (h', comps) =>
    some (⟨c.host, c.port, none, none, h', c.nextStream⟩,
      [.disconnected c.host c.port,
       .dispatched "CLIENT_DISCONNECT" (lifecycleFields c) comps])

/-- From `Connection.reconnect` in `bottom.py`: `disconnect()` then
`connect()`, sequentially. -/
def Connection.reconnect (env : Env) (c : Conn) :
    Option (Conn × List Action) :=
  match Connection.disconnect env c with
  | none => none
  | some (c1, a1) =>
    match Connection.connect env c1 with
    | none => none
    | some (c2, a2) => some (c2, a1 ++ a2)

def withActs (acts : List Action) (p : Option Conn × List Action) :
    Option Conn × List Action :=
  (p.1, acts ++ p.2)

/-- From the `while True` body of `Connection.loop` in `bottom.py`, run over
a scripted list of reads (each entry is what `Connection.read` returns for
one iteration: the decoded, stripped line, `""` for EOF / lost connection).
An empty read triggers `reconnect()`; a non-empty read is parsed
(`rfc.parse`), dropped if the parser does not understand it, otherwise
unpacked and dispatched, awaiting the handler group before the next read.
The loop itself catches nothing: an exception out of dispatch
(`get_command` on an unrecognized token) escapes, modelled by `(none, _)`. -/
def Connection.loopGo (env : Env) : Conn → List String → Option Conn × List Action
  | c, [] => (some c, [])
  | c, msg :: rest =>
    if msg = "" then
      match Connection.reconnect env c with
      | none => (none, [])
      | some (c1, acts) => withActs acts (Connection.loopGo env c1 rest)
    else
      match rfc_parse msg with
      | none => withActs [.dropped msg] (Connection.loopGo env c rest)
      | some args =>
        match Handler.call env c.handle (route_unpack args).1
            (route_unpack args).2 with
        | none => (none, [])
        | some (h', comps) =>
          withActs
            [.dispatched (route_unpack args).1 (route_unpack args).2 comps]
            (Connection.loopGo env { c with handle := h' } rest)

/-- From `Connection.loop` in `bottom.py`: `connect()` first, then the read
loop. -/
def Connection.loop (env : Env) (c : Conn) (inputs : List String) :
    Option Conn × List Action :=
  match Connection.connect env c with
  | none => (none, [])
  | some (c1, acts) => withActs acts (Connection.loopGo env c1 inputs)

/-! ### Connection lemmas -/

theorem get_command_client_connect :
    get_command "CLIENT_CONNECT" = some "CLIENT_CONNECT" := by decide

theorem get_command_client_disconnect :
    get_command "CLIENT_DISCONNECT" = some "CLIENT_DISCONNECT" := by decide

/-- `connect()` always succeeds in the model: fresh streams are installed,
`CLIENT_CONNECT` is dispatched with `{host, port}` to exactly the handlers
registered for it, host/port are untouched. -/
theorem Connection.connect_spec (env : Env) (c : Conn) :
    ∃ c' comps, Connection.connect env c = some (c',
        [.connected c.host c.port,
         .dispatched "CLIENT_CONNECT" (lifecycleFields c) comps]) ∧
      c'.host = c.host ∧ c'.port = c.port ∧
      c'.reader = some c.nextStream ∧ c'.writer = some (c.nextStream + 1) ∧
      c'.nextStream = c.nextStream + 2 ∧
      comps = (c.handle.bindings "CLIENT_CONNECT").map
        (fun b => (b, env.behavior b.func (lifecycleFields c))) ∧
      (∀ k, c'.handle.bindings k = c.handle.bindings k) := by
  obtain ⟨h', hcall, hext, -⟩ :=
    Handler.call_characterization env c.handle "CLIENT_CONNECT"
      (lifecycleFields c) get_command_client_connect
  refine ⟨⟨c.host, c.port, some c.nextStream, some (c.nextStream + 1), h',
      c.nextStream + 2⟩, _, ?_, rfl, rfl, rfl, rfl, rfl, rfl, hext⟩
  unfold Connection.connect
  rw [hcall]

/-- `disconnect()` always succeeds in the model: reader and writer are
released, `CLIENT_DISCONNECT` is dispatched with `{host, port}` to exactly
the handlers registered for it, host/port are untouched — all of this also
when the connection is already down, since the code clears the fields and
dispatches unconditionally. -/
theorem Connection.disconnect_spec (env : Env) (c : Conn) :
    ∃ c' comps, Connection.disconnect env c = some (c',
        [.disconnected c.host c.port,
         .dispatched "CLIENT_DISCONNECT" (lifecycleFields c) comps]) ∧
      c'.host = c.host ∧ c'.port = c.port ∧
      c'.reader = none ∧ c'.writer = none ∧
      c'.nextStream = c.nextStream ∧
      comps = (c.handle.bindings "CLIENT_DISCONNECT").map
        (fun b => (b, env.behavior b.func (lifecycleFields c))) ∧
      (∀ k, c'.handle.bindings k = c.handle.bindings k) := by
  obtain ⟨h', hcall, hext, -⟩ :=
    Handler.call_characterization env c.handle "CLIENT_DISCONNECT"
      (lifecycleFields c) get_command_client_disconnect
  refine ⟨⟨c.host, c.port, none, none, h', c.nextStream⟩, _, ?_,
    rfl, rfl, rfl, rfl, rfl, rfl, hext⟩
  unfold Connection.disconnect
  rw [hcall]

theorem lifecycleFields_congr {c c' : Conn} (hh : c'.host = c.host)
    (hp : c'.port = c.port) : lifecycleFields c' = lifecycleFields c := by
  unfold lifecycleFields
  rw [hh, hp]

/-- `reconnect()` is one `disconnect()` immediately followed by one
`connect()`: the emitted actions are exactly the two lifecycle transitions
with their dispatches, host and port are preserved, and a fresh stream pair
is installed. -/
theorem Connection.reconnect_spec (env : Env) (c : Conn) :
    ∃ c2 compsD compsC, Connection.reconnect env c = some (c2,
        [.disconnected c.host c.port,
         .dispatched "CLIENT_DISCONNECT" (lifecycleFields c) compsD,
         .connected c.host c.port,
         .dispatched "CLIENT_CONNECT" (lifecycleFields c) compsC]) ∧
      c2.host = c.host ∧ c2.port = c.port ∧
      c2.reader = some c.nextStream ∧ c2.writer = some (c.nextStream + 1) ∧
      compsD = (c.handle.bindings "CLIENT_DISCONNECT").map
        (fun b => (b, env.behavior b.func (lifecycleFields c))) ∧
      compsC = (c.handle.bindings "CLIENT_CONNECT").map
        (fun b => (b, env.behavior b.func (lifecycleFields c))) ∧
      (∀ k, c2.handle.bindings k = c.handle.bindings k) := by
  obtain ⟨c1, compsD, hd, hh1, hp1, -, -, hn1, hcompsD, hext1⟩ :=
    Connection.disconnect_spec env c
  obtain ⟨c2, compsC, hc, hh2, hp2, hr2, hw2, -, hcompsC, hext2⟩ :=
    Connection.connect_spec env c1
  have hlf : lifecycleFields c1 = lifecycleFields c := lifecycleFields_congr hh1 hp1
  refine ⟨c2, compsD, compsC, ?_, ?_, ?_, ?_, ?_, hcompsD, ?_, ?_⟩
  · simp only [Connection.reconnect, hd, hc, List.cons_append,
      List.nil_append]
    rw [hh1, hp1, hlf]
  · rw [hh2, hh1]
  · rw [hp2, hp1]
  · rw [hr2, hn1]
  · rw [hw2, hn1]
  · rw [hcompsC, hlf, hext1]
  · intro k
    rw [hext2, hext1]

/-! ### Read-loop step lemmas -/

theorem Connection.loopGo_nil (env : Env) (c : Conn) :
    Connection.loopGo env c [] = (some c, []) := rfl

/-- An empty read (lost connection): the loop runs `reconnect()` — exactly
one disconnect immediately followed by one connect, host/port preserved, a
fresh stream installed — and then resumes reading the remaining lines from
the new state. -/
theorem Connection.loopGo_eof (env : Env) (c : Conn) (rest : List String) :
    ∃ c1 compsD compsC, Connection.loopGo env c ("" :: rest) =
        ((Connection.loopGo env c1 rest).1,
          [.disconnected c.host c.port,
           .dispatched "CLIENT_DISCONNECT" (lifecycleFields c) compsD,
           .connected c.host c.port,
           .dispatched "CLIENT_CONNECT" (lifecycleFields c) compsC] ++
            (Connection.loopGo env c1 rest).2) ∧
      c1.host = c.host ∧ c1.port = c.port ∧
      c1.reader = some c.nextStream ∧ c1.writer = some (c.nextStream + 1) ∧
      (∀ k, c1.handle.bindings k = c.handle.bindings k) := by
  obtain ⟨c2, compsD, compsC, hrec, hh, hp, hr, hw, -, -, hext⟩ :=
    Connection.reconnect_spec env c
  refine ⟨c2, compsD, compsC, ?_, hh, hp, hr, hw, hext⟩
  simp only [Connection.loopGo, if_pos rfl]
  rw [hrec]
  rfl

/-- A non-empty line the parser does not understand is dropped: no handler
runs, nothing fails, and the loop continues with the remaining lines in an
unchanged state. -/
theorem Connection.loopGo_drop (env : Env) (c : Conn) {m : String}
    (rest : List String) (hm : m ≠ "") (hp : rfc_parse m = none) :
    Connection.loopGo env c (m :: rest) =
      ((Connection.loopGo env c rest).1,
        .dropped m :: (Connection.loopGo env c rest).2) := by
  simp only [Connection.loopGo, if_neg hm]
  rw [hp]
  rfl

/-- A non-empty line that parses is dispatched: the handler group for its
command is awaited (one completion per registered binding), and only then
does the loop move on to the remaining lines. -/
theorem Connection.loopGo_dispatch (env : Env) (c : Conn) {m : String}
    (rest : List String) (hm : m ≠ "") {args : Parsed}
    (hp : rfc_parse m = some args) :
    ∃ h', Connection.loopGo env c (m :: rest) =
        ((Connection.loopGo env { c with handle := h' } rest).1,
          .dispatched (route_unpack args).1 (route_unpack args).2
              ((c.handle.bindings args.command).map
                (fun b => (b, env.behavior b.func (route_unpack args).2))) ::
            (Connection.loopGo env { c with handle := h' } rest).2) ∧
      (∀ k, h'.bindings k = c.handle.bindings k) := by
  have hcanon : get_command (route_unpack args).1 = some args.command :=
    get_command_canonical (Or.inr (rfc_parse_command_mem hp))
  obtain ⟨h', hcall, hext, -⟩ :=
    Handler.call_characterization env c.handle (route_unpack args).1
      (route_unpack args).2 hcanon
  refine ⟨h', ?_, hext⟩
  simp only [Connection.loopGo, if_neg hm, hp, hcall, withActs]
  rfl


/-! ## Concrete fixtures used by witnesses and counterexamples -/

/-- Callables declare no parameters and always return normally. -/
def envOk : Env := ⟨fun _ => [], fun _ => ["host", "port"], fun _ _ => .ok⟩

/-- Callable 0 raises (exception code 7); every other callable returns
normally.  Declared parameters and legal fields as in `envOk`. -/
def envFail : Env :=
  ⟨fun _ => [], fun _ => ["host", "port"],
   fun f _ => if f = 0 then .err 7 else .ok⟩

/-- Callable 0 declares `host` (legal); callable 1 declares `nosuch`
(illegal).  Legal fields of every command: `host`, `port`. -/
def envSig : Env :=
  ⟨fun f => if f = 0 then ["host"] else ["nosuch"],
   fun _ => ["host", "port"], fun _ _ => .ok⟩

/-- A registry holding one binding (wrapper 0, callable 0) for `PRIVMSG`. -/
def hOne : Handler := ⟨[("PRIVMSG", [⟨0, 0⟩])], 1⟩

/-- A registry holding two sibling bindings for `PRIVMSG`: wrapper 0 around
callable 0 and wrapper 1 around callable 1. -/
def hTwo : Handler := ⟨[("PRIVMSG", [⟨0, 0⟩, ⟨1, 1⟩]), ("PING", [])], 2⟩

/-- The registry after registering callable 0 for `PRIVMSG` once. -/
def hDup1 : Handler := ⟨[("PRIVMSG", [⟨0, 0⟩])], 1⟩

/-- The registry after registering callable 0 for `PRIVMSG` twice. -/
def hDup2 : Handler := ⟨[("PRIVMSG", [⟨0, 0⟩, ⟨1, 0⟩])], 2⟩

/-- A connected `Connection` with an empty registry. -/
def connW : Conn := ⟨"irc.example.com", 6697, some 0, some 1, Handler.empty, 2⟩

/-! ## The claims -/

/-- C8: command normalization is idempotent on valid tokens
(`normalize(normalize(t)) = normalize(t)`), case-insensitive (tokens with
the same upper-casing normalize alike, e.g. `"join"` vs `"JOIN"`), checks
the fixed local-command set first, and delegates only absent tokens to the
protocol command table. -/
theorem claim_C8_normalization :
    (∀ t c : String, get_command t = some c → get_command c = some c) ∧
    (∀ s t : String, strUpper s = strUpper t →
      get_command s = get_command t) ∧
    get_command "join" = get_command "JOIN" ∧
    (∀ t : String, strUpper t ∈ LOCAL_COMMANDS →
      get_command t = some (strUpper t)) ∧
    (∀ t : String, strUpper t ∉ LOCAL_COMMANDS →
      get_command t = rfc_unique_command (strUpper t)) := by
  refine ⟨?_, ?_, by decide, ?_, ?_⟩
  · intro t c h
    exact get_command_canonical (get_command_eq_some h).2
  · intro s t h
    unfold get_command
    rw [h]
  · intro t h
    unfold get_command
    rw [if_pos h]
  · intro t h
    unfold get_command
    rw [if_neg h]

/-- Witness for C8 at the spec's own example tokens. -/
theorem claim_C8_witness :
    (get_command "join" = some "JOIN" ∧ strUpper "join" = strUpper "JOIN" ∧
      strUpper "client_connect" ∈ LOCAL_COMMANDS ∧
      strUpper "join" ∉ LOCAL_COMMANDS) ∧
    get_command "JOIN" = some "JOIN" ∧
    get_command "join" = get_command "JOIN" ∧
    get_command "client_connect" = some (strUpper "client_connect") ∧
    get_command "join" = rfc_unique_command (strUpper "join") :=
  ⟨⟨by decide, by decide, by decide, by decide⟩,
   claim_C8_normalization.1 "join" "JOIN" (by decide),
   claim_C8_normalization.2.1 "join" "JOIN" (by decide),
   claim_C8_normalization.2.2.2.1 "client_connect" (by decide),
   claim_C8_normalization.2.2.2.2 "join" (by decide)⟩

/-- C9: dispatching a command for which zero handlers are registered
returns normally and invokes no handler (the completion group is empty);
the registered bindings are untouched. -/
theorem claim_C9_no_handler_noop (env : Env) (h : Handler)
    (command c : String) (kwargs : Fields)
    (hc : get_command command = some c) (hb : h.bindings c = []) :
    ∃ h', Handler.call env h command kwargs = some (h', []) ∧
      (∀ k, h'.bindings k = h.bindings k) := by
  obtain ⟨h', hcall, hext, -⟩ :=
    Handler.call_characterization env h command kwargs hc
  rw [hb] at hcall
  exact ⟨h', by simpa using hcall, hext⟩

/-- Witness for C9: dispatching `PING` against an empty registry. -/
theorem claim_C9_witness :
    (get_command "PING" = some "PING" ∧
      Handler.empty.bindings "PING" = []) ∧
    ∃ h', Handler.call envOk Handler.empty "PING" [] = some (h', []) ∧
      (∀ k, h'.bindings k = Handler.empty.bindings k) :=
  ⟨⟨by decide, by decide⟩,
   claim_C9_no_handler_noop envOk Handler.empty "PING" "PING" []
     (by decide) (by decide)⟩

/-- C7: registering a handler whose declared parameters are not a subset of
the command's legal field set fails at registration time with a binding
error (before any event is processed); a handler whose parameters are a
subset registers successfully. -/
theorem claim_C7_registration_validation (env : Env) (h : Handler)
    (command c : String) (f : Nat) (hc : get_command command = some c) :
    (¬ (∀ p ∈ env.funcParams f, p ∈ env.legalFields c) →
      Client.on env h command f = .error .invalidSignature) ∧
    ((∀ p ∈ env.funcParams f, p ∈ env.legalFields c) →
      ∃ h', Client.on env h command f = .ok h') := by
  have hcanon : get_command c = some c :=
    get_command_canonical (get_command_eq_some hc).2
  constructor
  · intro hns
    have hv : route_validate env c f = false := by
      cases hvb : route_validate env c f with
      | false => rfl
      | true => exact absurd ((route_validate_iff env c f).mp hvb) hns
    simp [Client.on, hc, Handler.add, hcanon, hv]
  · intro hs
    have hv : route_validate env c f = true :=
      (route_validate_iff env c f).mpr hs
    refine ⟨⟨dictAddTo h.coros c ⟨h.nextId, f⟩, h.nextId + 1⟩, ?_⟩
    simp [Client.on, hc, Handler.add, hcanon, hv]

/-- Witness for C7: under `envSig`, callable 1 (declares `nosuch`) is
rejected and callable 0 (declares `host`) is accepted, both registered for
`client_connect`. -/
theorem claim_C7_witness :
    (get_command "client_connect" = some "CLIENT_CONNECT" ∧
      ¬ (∀ p ∈ envSig.funcParams 1, p ∈ envSig.legalFields "CLIENT_CONNECT") ∧
      (∀ p ∈ envSig.funcParams 0, p ∈ envSig.legalFields "CLIENT_CONNECT")) ∧
    Client.on envSig Handler.empty "client_connect" 1 =
      .error .invalidSignature ∧
    (∃ h', Client.on envSig Handler.empty "client_connect" 0 = .ok h') :=
  ⟨⟨by decide, by decide, by decide⟩,
   (claim_C7_registration_validation envSig Handler.empty "client_connect"
     "CLIENT_CONNECT" 1 (by decide)).1 (by decide),
   (claim_C7_registration_validation envSig Handler.empty "client_connect"
     "CLIENT_CONNECT" 0 (by decide)).2 (by decide)⟩

/-- C3: a wire line whose command token the protocol command table rejects
is dropped exactly like an unparseable line: the loop records only the drop,
invokes zero handlers, raises nothing, and continues with the remaining
lines in an unchanged state. -/
theorem claim_C3_unknown_command_dropped (env : Env) (c : Conn)
    (m t : String) (rest : List String) (hm : m ≠ "")
    (ht : commandTokenOf m = some t)
    (hu : rfc_unique_command (strUpper t) = none) :
    Connection.loopGo env c (m :: rest) =
      ((Connection.loopGo env c rest).1,
        .dropped m :: (Connection.loopGo env c rest).2) :=
  Connection.loopGo_drop env c rest hm (rfc_parse_none_of_token ht hu)

/-- Witness for C3: the line `"FROB hello"` carries the unrecognized
command token `FROB` and is dropped. -/
theorem claim_C3_witness :
    ("FROB hello" ≠ "" ∧ commandTokenOf "FROB hello" = some "FROB" ∧
      rfc_unique_command (strUpper "FROB") = none) ∧
    Connection.loopGo envOk connW ["FROB hello"] =
      ((Connection.loopGo envOk connW []).1,
        .dropped "FROB hello" :: (Connection.loopGo envOk connW []).2) :=
  ⟨⟨by decide, by decide, by decide⟩,
   claim_C3_unknown_command_dropped envOk connW "FROB hello" "FROB" []
     (by decide) (by decide) (by decide)⟩

/-- C5: on an empty/EOF read the loop performs exactly one disconnect
immediately followed by exactly one connect — the emitted actions are
literally the two transitions with their lifecycle dispatches and nothing
else — host and port are unchanged, a fresh stream pair is installed, and
the loop resumes reading the remaining lines from the new state. -/
theorem claim_C5_eof_reconnect (env : Env) (c : Conn) (rest : List String) :
    ∃ c1 compsD compsC, Connection.loopGo env c ("" :: rest) =
        ((Connection.loopGo env c1 rest).1,
          [.disconnected c.host c.port,
           .dispatched "CLIENT_DISCONNECT" (lifecycleFields c) compsD,
           .connected c.host c.port,
           .dispatched "CLIENT_CONNECT" (lifecycleFields c) compsC] ++
            (Connection.loopGo env c1 rest).2) ∧
      c1.host = c.host ∧ c1.port = c.port ∧
      c1.reader = some c.nextStream ∧ c1.writer = some (c.nextStream + 1) ∧
      (∀ k, c1.handle.bindings k = c.handle.bindings k) :=
  Connection.loopGo_eof env c rest

/-- C6: every `disconnect()` call dispatches `CLIENT_DISCONNECT` with
fields `{host, port}` and leaves the connection disconnected (reader and
writer released, host/port kept); calling it again from the disconnected
state changes nothing except re-dispatching the same lifecycle event. -/
theorem claim_C6_disconnect_lifecycle (env : Env) (c : Conn) :
    ∃ c' comps, Connection.disconnect env c = some (c',
        [.disconnected c.host c.port,
         .dispatched "CLIENT_DISCONNECT" (lifecycleFields c) comps]) ∧
      c'.reader = none ∧ c'.writer = none ∧
      c'.host = c.host ∧ c'.port = c.port ∧ c'.nextStream = c.nextStream ∧
      comps = (c.handle.bindings "CLIENT_DISCONNECT").map
        (fun b => (b, env.behavior b.func (lifecycleFields c))) ∧
      (∀ k, c'.handle.bindings k = c.handle.bindings k) ∧
      (∃ c2 comps2, Connection.disconnect env c' = some (c2,
          [.disconnected c.host c.port,
           .dispatched "CLIENT_DISCONNECT" (lifecycleFields c) comps2]) ∧
        c2.reader = none ∧ c2.writer = none ∧
        c2.host = c.host ∧ c2.port = c.port) := by
  obtain ⟨c', comps, hd, hh, hp, hr, hw, hn, hcomps, hext⟩ :=
    Connection.disconnect_spec env c
  refine ⟨c', comps, hd, hr, hw, hh, hp, hn, hcomps, hext, ?_⟩
  obtain ⟨c2, comps2, hd2, hh2, hp2, hr2, hw2, -, -, -⟩ :=
    Connection.disconnect_spec env c'
  have hlf : lifecycleFields c' = lifecycleFields c :=
    lifecycleFields_congr hh hp
  refine ⟨c2, comps2, ?_, hr2, hw2, ?_, ?_⟩
  · rw [← hlf, ← hh, ← hp]
    exact hd2
  · rw [hh2, hh]
  · rw [hp2, hp]

/-- C1: dispatch suspends the read loop until every handler invoked for the
event has completed — the group the dispatcher awaits holds exactly one
completion per registered binding — and the loop handles one input at a
time: the whole action block of an input (including its complete handler
group) precedes everything emitted for later inputs, so event N+1's
dispatch is serialized behind event N's handlers and at most one event's
handler group is ever in flight. -/
theorem claim_C1_dispatch_barrier :
    (∀ (env : Env) (h : Handler) (command : String) (kwargs : Fields)
        (c : String) (h' : Handler) (comps : List (Binding × HResult)),
      get_command command = some c →
      Handler.call env h command kwargs = some (h', comps) →
      comps = (h.bindings c).map
        (fun b => (b, env.behavior b.func kwargs))) ∧
    (∀ (env : Env) (c : Conn) (m : String) (rest : List String),
      ∃ block c', Connection.loopGo env c (m :: rest) =
        ((Connection.loopGo env c' rest).1,
          block ++ (Connection.loopGo env c' rest).2)) := by
  constructor
  · intro env h command kwargs c h' comps hc hcall
    obtain ⟨h2, hcall2, -, -⟩ :=
      Handler.call_characterization env h command kwargs hc
    rw [hcall] at hcall2
    injection hcall2 with hp2
    exact congrArg Prod.snd hp2
  · intro env c m rest
    by_cases hm : m = ""
    · subst hm
      obtain ⟨c1, compsD, compsC, heq, -, -, -, -, -⟩ :=
        Connection.loopGo_eof env c rest
      exact ⟨_, c1, heq⟩
    · cases hp : rfc_parse m with
      | none =>
        refine ⟨[.dropped m], c, ?_⟩
        rw [Connection.loopGo_drop env c rest hm hp]
        rfl
      | some args =>
        obtain ⟨h', heq, -⟩ := Connection.loopGo_dispatch env c rest hm hp
        refine ⟨[.dispatched (route_unpack args).1 (route_unpack args).2
            ((c.handle.bindings args.command).map
              (fun b => (b, env.behavior b.func (route_unpack args).2)))],
          { c with handle := h' }, ?_⟩
        rw [heq]
        rfl

/-- Witness for C1: dispatching `PRIVMSG` against a registry with one
binding awaits exactly that handler's completion; one loop step over a
concrete input forms one complete block. -/
theorem claim_C1_witness :
    (get_command "PRIVMSG" = some "PRIVMSG" ∧
      Handler.call envOk hOne "PRIVMSG" [] =
        some (hOne, [(⟨0, 0⟩, HResult.ok)])) ∧
    [((⟨0, 0⟩ : Binding), HResult.ok)] =
      (hOne.bindings "PRIVMSG").map
        (fun b => (b, envOk.behavior b.func [])) ∧
    (∃ block c', Connection.loopGo envOk connW ["PING x"] =
      ((Connection.loopGo envOk c' []).1,
        block ++ (Connection.loopGo envOk c' []).2)) :=
  ⟨⟨by decide, by decide⟩,
   claim_C1_dispatch_barrier.1 envOk hOne "PRIVMSG" [] "PRIVMSG" hOne
     [(⟨0, 0⟩, HResult.ok)] (by decide) (by decide),
   claim_C1_dispatch_barrier.2 envOk connW "PING x" []⟩

/-- C2 as stated is wrong about surfacing (see the counterexample); this is
the amended claim: when a handler raises during dispatch, its siblings in
the same group are still awaited (every registered binding, failing or not,
has its completion in the awaited group), dispatch returns normally — the
read loop is not crashed — but the failure is NOT surfaced to the read
loop: the dispatcher discards the results of the wait, so what it hands the
loop is independent of the handlers' outcomes. -/
theorem claim_C2_amended :
    (∀ (env : Env) (h : Handler) (command : String) (kwargs : Fields)
        (c : String) (h' : Handler) (comps : List (Binding × HResult)),
      get_command command = some c →
      Handler.call env h command kwargs = some (h', comps) →
      ∀ b ∈ h.bindings c, (b, env.behavior b.func kwargs) ∈ comps) ∧
    (∀ (env : Env) (h : Handler) (command : String) (kwargs : Fields)
        (c : String), get_command command = some c →
      (Handler.call env h command kwargs).isSome) ∧
    (∀ (env1 env2 : Env) (h : Handler) (command : String) (kwargs : Fields),
      (Handler.call env1 h command kwargs).map Prod.fst =
        (Handler.call env2 h command kwargs).map Prod.fst) := by
  refine ⟨?_, ?_, Handler.call_observable_independent⟩
  · intro env h command kwargs c h' comps hc hcall b hb
    obtain ⟨h2, hcall2, -, -⟩ :=
      Handler.call_characterization env h command kwargs hc
    rw [hcall] at hcall2
    injection hcall2 with hp2
    have hcomps : comps = (h.bindings c).map
        (fun b => (b, env.behavior b.func kwargs)) := congrArg Prod.snd hp2
    rw [hcomps]
    exact List.mem_map_of_mem _ hb
  · intro env h command kwargs c hc
    cases hcall : Handler.call env h command kwargs with
    | none =>
      have := (Handler.call_none_iff env h command kwargs).mp hcall
      rw [hc] at this
      exact absurd this (by simp)
    | some v => rfl

/-- Counterexample for C2 as stated: with callable 0 raising (code 7) and
callable 1 succeeding, the awaited group records the failure and the
completed sibling, yet what dispatch hands back to the read loop is
identical to the run in which every handler succeeds — the failure is not
surfaced to the read loop (it vanishes with the discarded wait results). -/
theorem claim_C2_counterexample :
    Handler.call envFail hTwo "PRIVMSG" [] =
      some (hTwo, [(⟨0, 0⟩, HResult.err 7), (⟨1, 1⟩, HResult.ok)]) ∧
    (Handler.call envFail hTwo "PRIVMSG" []).map Prod.fst =
      (Handler.call envOk hTwo "PRIVMSG" []).map Prod.fst :=
  ⟨by decide, by decide⟩

/-- Witness for the amended C2: the failing callable's sibling (wrapper 1)
is awaited to completion in the same group as the failure. -/
theorem claim_C2_witness :
    (get_command "PRIVMSG" = some "PRIVMSG" ∧
      Handler.call envFail hTwo "PRIVMSG" [] =
        some (hTwo, [(⟨0, 0⟩, HResult.err 7), (⟨1, 1⟩, HResult.ok)]) ∧
      (⟨1, 1⟩ : Binding) ∈ hTwo.bindings "PRIVMSG") ∧
    ((⟨1, 1⟩ : Binding), HResult.ok) ∈
      [((⟨0, 0⟩ : Binding), HResult.err 7), (⟨1, 1⟩, HResult.ok)] :=
  ⟨⟨by decide, by decide, by decide⟩,
   claim_C2_amended.1 envFail hTwo "PRIVMSG" [] "PRIVMSG" hTwo
     [(⟨0, 0⟩, HResult.err 7), (⟨1, 1⟩, HResult.ok)] (by decide) (by decide)
     ⟨1, 1⟩ (by decide)⟩

/-- Inversion of a successful registration. -/
theorem Handler.add_ok_inv {env : Env} {h : Handler} {command : String}
    {f : Nat} {h1 : Handler}
    (ha : Handler.add env h command f = .ok h1) :
    ∃ c, get_command command = some c ∧ route_validate env c f = true ∧
      h1 = ⟨dictAddTo h.coros c ⟨h.nextId, f⟩, h.nextId + 1⟩ := by
  cases hc : get_command command with
  | none =>
    simp only [Handler.add, hc] at ha
    exact absurd ha (by simp)
  | some c =>
    simp only [Handler.add, hc] at ha
    by_cases hv : route_validate env c f = true
    · rw [if_pos hv] at ha
      injection ha with ha
      exact ⟨c, rfl, hv, ha.symm⟩
    · rw [if_neg hv] at ha
      exact absurd ha (by simp)

/-- C4 as stated is wrong (see the counterexample); this is the amended
claim: set semantics applies to the wrapped coroutine objects, which are
freshly created on every registration and never compare equal, so
registering the same (command, callable) pair twice stores two distinct
bindings — the original ones followed by two fresh wrappers of the same
callable — and dispatch of that command invokes the callable once per
stored binding, i.e. twice per event for the duplicate. -/
theorem claim_C4_amended (env : Env) (h : Handler) (command : String)
    (f : Nat) (c : String) (h1 h2 : Handler) (hwf : h.wf)
    (hc : get_command command = some c)
    (ha1 : Handler.add env h command f = .ok h1)
    (ha2 : Handler.add env h1 command f = .ok h2) :
    h2.bindings c = h.bindings c ++ [⟨h.nextId, f⟩, ⟨h.nextId + 1, f⟩] ∧
    (∀ (env' : Env) (kwargs : Fields) (h3 : Handler)
        (comps : List (Binding × HResult)),
      Handler.call env' h2 command kwargs = some (h3, comps) →
      comps = (h.bindings c ++
          [(⟨h.nextId, f⟩ : Binding), ⟨h.nextId + 1, f⟩]).map
        (fun b => (b, env'.behavior b.func kwargs))) := by
  obtain ⟨c1, hc1, hv1, -⟩ := Handler.add_ok_inv ha1
  rw [hc] at hc1
  injection hc1 with hc1
  subst hc1
  obtain ⟨ha1', hadd1, hb1, -, hnid1, hwf1⟩ := Handler.add_ok hwf hc hv1
  rw [ha1] at hadd1
  injection hadd1 with hadd1
  subst hadd1
  obtain ⟨ha2', hadd2, hb2, -, hnid2, -⟩ := Handler.add_ok hwf1 hc hv1
  rw [ha2] at hadd2
  injection hadd2 with hadd2
  subst hadd2
  have hbinds : h2.bindings c =
      h.bindings c ++ [⟨h.nextId, f⟩, ⟨h.nextId + 1, f⟩] := by
    rw [hb2, hb1, hnid1]
    simp
  refine ⟨hbinds, ?_⟩
  intro env' kwargs h3 comps hcall
  obtain ⟨h4, hcall2, -, -⟩ :=
    Handler.call_characterization env' h2 command kwargs hc
  rw [hcall] at hcall2
  injection hcall2 with hp2
  have hcomps : comps = (h2.bindings c).map
      (fun b => (b, env'.behavior b.func kwargs)) := congrArg Prod.snd hp2
  rw [hcomps, hbinds]

/-- Counterexample for C4 as stated: registering callable 0 for `PRIVMSG`
twice leaves TWO bindings (wrappers 0 and 1), not one, and dispatching one
`PRIVMSG` event invokes callable 0 twice. -/
theorem claim_C4_counterexample :
    Handler.add envOk Handler.empty "PRIVMSG" 0 = .ok hDup1 ∧
    Handler.add envOk hDup1 "PRIVMSG" 0 = .ok hDup2 ∧
    (hDup2.bindings "PRIVMSG").length ≠ 1 ∧
    (hDup2.bindings "PRIVMSG").length = 2 ∧
    (Handler.call envOk hDup2 "PRIVMSG" []).map
        (fun r => r.2.map (fun x => x.1.func)) = some [0, 0] :=
  ⟨by rfl, by rfl, by decide, by decide, by decide⟩

/-- Witness for the amended C4 at the concrete duplicate registration. -/
theorem claim_C4_witness :
    (Handler.empty.wf ∧ get_command "PRIVMSG" = some "PRIVMSG" ∧
      Handler.add envOk Handler.empty "PRIVMSG" 0 = .ok hDup1 ∧
      Handler.add envOk hDup1 "PRIVMSG" 0 = .ok hDup2) ∧
    hDup2.bindings "PRIVMSG" =
      Handler.empty.bindings "PRIVMSG" ++
        [⟨Handler.empty.nextId, 0⟩, ⟨Handler.empty.nextId + 1, 0⟩] :=
  ⟨⟨by decide, by decide, by rfl, by rfl⟩,
   (claim_C4_amended envOk Handler.empty "PRIVMSG" 0 "PRIVMSG" hDup1 hDup2
     (by decide) (by decide) (by rfl) (by rfl)).1⟩

/-- C10 as stated is wrong about key insertion (see the counterexample);
this is the amended claim: dispatch never changes any command's
handler-binding set (the registry is extensionally unchanged, and the
wrapper serial counter is untouched), but dispatching a command whose
normalized key is absent from the underlying dict inserts an explicit entry
with an empty binding set for that key — the `defaultdict` lookup — so the
dict's key set can grow. -/
theorem claim_C10_amended (env : Env) (h : Handler) (command : String)
    (kwargs : Fields) (h' : Handler) (comps : List (Binding × HResult))
    (hcall : Handler.call env h command kwargs = some (h', comps)) :
    (∀ k, h'.bindings k = h.bindings k) ∧ h'.nextId = h.nextId := by
  cases hc : get_command command with
  | none =>
    rw [(Handler.call_none_iff env h command kwargs).mpr hc] at hcall
    exact absurd hcall (by simp)
  | some c =>
    obtain ⟨h2, hcall2, hext, hnid⟩ :=
      Handler.call_characterization env h command kwargs hc
    rw [hcall] at hcall2
    injection hcall2 with hp2
    have hh : h' = h2 := congrArg Prod.fst hp2
    rw [hh]
    exact ⟨hext, hnid⟩

/-- Counterexample for C10 as stated: dispatching `PING` against the empty
registry adds an entry (key `PING`, empty set) to the dict — the registry
value changes, where the claim says no entry is added. -/
theorem claim_C10_counterexample :
    Handler.call envOk Handler.empty "PING" [] =
      some (⟨[("PING", [])], 0⟩, []) ∧
    (⟨[("PING", [])], 0⟩ : Handler) ≠ Handler.empty ∧
    Handler.empty.coros.length = 0 ∧
    (⟨[("PING", [])], 0⟩ : Handler).coros.length = 1 :=
  ⟨by decide, by decide, rfl, rfl⟩

/-- Witness for the amended C10: the inserted `PING` entry is empty, so
every command's binding set reads the same as before. -/
theorem claim_C10_witness :
    Handler.call envOk Handler.empty "PING" [] =
      some (⟨[("PING", [])], 0⟩, []) ∧
    ((∀ k, (⟨[("PING", [])], 0⟩ : Handler).bindings k =
        Handler.empty.bindings k) ∧
      (⟨[("PING", [])], 0⟩ : Handler).nextId = Handler.empty.nextId) :=
  ⟨by decide,
   claim_C10_amended envOk Handler.empty "PING" [] ⟨[("PING", [])], 0⟩ []
     (by decide)⟩

end Bottom
